import Mathlib

/-!
Verification development for the MuJoCo portfolio simulator frontend.

The TypeScript sources under src/ are shallowly embedded here: machine
floats become rationals, typed arrays become total functions or lists,
and the per-frame render loop becomes explicit state passing. Each
definition mirrors the source function of the same name.
-/

set_option autoImplicit false

namespace Portfolio

/-- Rational 3-vector mirroring a THREE.Vector3 instance. -/
structure Vec3 where
  x : ℚ
  y : ℚ
  z : ℚ
  deriving DecidableEq, Repr

/-- THREE.Vector3.set: arguments are evaluated, then assigned. -/
def Vec3.set (_target : Vec3) (a b c : ℚ) : Vec3 :=
  ⟨a, b, c⟩

/-- THREE.Vector3.clone().sub(w): componentwise difference. -/
def Vec3.subv (v w : Vec3) : Vec3 :=
  ⟨v.x - w.x, v.y - w.y, v.z - w.z⟩

/-- THREE.Vector3.add(w): componentwise sum. -/
def Vec3.addv (v w : Vec3) : Vec3 :=
  ⟨v.x + w.x, v.y + w.y, v.z + w.z⟩

/-- THREE.Vector3.multiplyScalar. -/
def Vec3.multiplyScalar (v : Vec3) (c : ℚ) : Vec3 :=
  ⟨v.x * c, v.y * c, v.z * c⟩

/-- Rational quaternion mirroring a THREE.Quaternion; THREE stores (x, y, z, w). -/
structure Quat where
  x : ℚ
  y : ℚ
  z : ℚ
  w : ℚ
  deriving DecidableEq, Repr

/-- THREE.Quaternion.set(x, y, z, w). -/
def Quat.set (_target : Quat) (a b c d : ℚ) : Quat :=
  ⟨a, b, c, d⟩

/-- Flat numeric buffer exposed by the physics binary (Float64Array as a total map). -/
def Buffer : Type := ℕ → ℚ

/-- MuJoCoUtils.getPosition: reads three consecutive entries at the given body
index and, when swizzle is set, converts from MuJoCo Z-up to THREE Y-up by
(x, y, z) to (x, z, -y). -/
def getPosition (buffer : Buffer) (index : ℕ) (target : Vec3) (swizzle : Bool) : Vec3 :=
  if swizzle then
    target.set (buffer (index * 3 + 0)) (buffer (index * 3 + 2)) (-(buffer (index * 3 + 1)))
  else
    target.set (buffer (index * 3 + 0)) (buffer (index * 3 + 1)) (buffer (index * 3 + 2))

/-- MuJoCoUtils.getQuaternion: reads four consecutive entries and, when swizzle
is set, maps the MuJoCo (w, x, y, z) storage to THREE (-x, -z, y, -w). -/
def getQuaternion (buffer : Buffer) (index : ℕ) (target : Quat) (swizzle : Bool) : Quat :=
  if swizzle then
    target.set (-(buffer (index * 4 + 1))) (-(buffer (index * 4 + 3)))
      (buffer (index * 4 + 2)) (-(buffer (index * 4 + 0)))
  else
    target.set (buffer (index * 4 + 0)) (buffer (index * 4 + 1))
      (buffer (index * 4 + 2)) (buffer (index * 4 + 3))

/-- MuJoCoUtils.toMujocoPos: converts a THREE Y-up vector to MuJoCo Z-up
in place, (x, y, z) to (x, -z, y). -/
def toMujocoPos (target : Vec3) : Vec3 :=
  target.set target.x (-target.z) target.y

/-- A three-entry buffer holding exactly the components of one vector,
used to state what the swizzle does to a single position record. -/
def bufferOfVec (v : Vec3) : Buffer :=
  fun k => if k = 0 then v.x else if k = 1 then v.y else if k = 2 then v.z else 0

/-!
Physics clock of MuJoCoDemo.render (MuJoCoSimulator.tsx, lines 176-255).
When physics is running the code first snaps the simulation clock to the
frame time if it lags by more than 35 ms, then repeatedly steps the
simulation, advancing the clock by timestep * 1000 ms, until the clock
reaches the frame time. The while loop is embedded with explicit fuel;
the termination theorem shows a concrete fuel always suffices.
-/

/-- Snap of the simulation clock: if (timeMS - this.mujocoTime > 35.0)
then this.mujocoTime = timeMS. -/
def snapTime (mujocoTime timeMS : ℚ) : ℚ :=
  if timeMS - mujocoTime > 35 then timeMS else mujocoTime

/-- Fuel-indexed embedding of the catch-up while loop: while the clock is
behind the frame time it performs one physics substep and advances the
clock by dt = timestep * 1000. Returns the substep count and final clock,
or none if the fuel runs out before the loop exits. -/
def stepLoop (fuel : ℕ) (dt timeMS t : ℚ) : Option (ℕ × ℚ) :=
  match fuel with
  | 0 => if t < timeMS then none else some (0, t)
  | Nat.succ f =>
    if t < timeMS then
      match stepLoop f dt timeMS (t + dt) with
      | some (n, tf) => some (n + 1, tf)
      | none => none
    else
      some (0, t)

/-- Fuel budget sufficient for one frame: the lag after the snap is at most
35 ms, so at most ceil(35 / dt) + 1 substeps can occur. -/
def substepBudget (dt : ℚ) : ℕ :=
  (Int.ceil (35 / dt)).toNat + 1

/-- Physics-clock portion of MuJoCoDemo.render: runs only when physics is
not paused and a model is loaded; otherwise the clock is untouched and no
substep occurs. -/
def renderClock (paused loaded : Bool) (timestep mujocoTime timeMS : ℚ) : Option (ℕ × ℚ) :=
  if paused = false ∧ loaded = true then
    stepLoop (substepBudget (timestep * 1000)) (timestep * 1000) timeMS
      (snapTime mujocoTime timeMS)
  else
    some (0, mujocoTime)

/-!
DragStateManager (DragStateManager.ts). The manager owns the pointer-driven
drag state: the grabbed scene object, the grab point in local and world
coordinates, the current cursor point on the grab sphere, and the enabled
flag of the orbit controls. Raycast results and the points computed from
the pointer ray are environmental inputs and enter as event data.
-/

/-- Scene object reachable by the raycaster. In the render scene each mesh
built for a physics body carries a bodyID tag; arbitrary scene objects may
lack it. The local/world transform pair stands for the object and parent
matrices used by THREE. -/
structure PhysObj where
  bodyID : Option ℕ
  worldToLocal : Vec3 → Vec3
  localToWorld : Vec3 → Vec3

/-- One raycast intersection: the object hit, its distance along the ray,
and the point ray.origin + ray.direction * distance. -/
structure Intersection where
  obj : PhysObj
  distance : ℚ
  hitPoint : Vec3

/-- Mutable state of DragStateManager. -/
structure DragState where
  active : Bool
  physicsObject : Option PhysObj
  mouseDown : Bool
  controlsEnabled : Bool
  arrowVisible : Bool
  grabDistance : ℚ
  localHit : Vec3
  worldHit : Vec3
  currentWorld : Vec3

/-- State after the DragStateManager constructor: no drag active, no grabbed
object, arrow hidden, orbit controls at their default enabled state. -/
def DragState.init : DragState :=
  { active := false
    physicsObject := none
    mouseDown := false
    controlsEnabled := true
    arrowVisible := false
    grabDistance := 0
    localHit := ⟨0, 0, 0⟩
    worldHit := ⟨0, 0, 0⟩
    currentWorld := ⟨0, 0, 0⟩ }

/-- Scan of the intersection list in DragStateManager.start: the first hit
whose object has a defined bodyID strictly greater than 0 is grabbed. -/
def findDraggable : List Intersection → Option Intersection
  | [] => none
  | i :: rest =>
    match i.obj.bodyID with
    | some b => if b > 0 then some i else findDraggable rest
    | none => findDraggable rest

/-- DragStateManager.start: clears the grabbed object, then grabs the first
draggable intersection, activating the drag, disabling orbit controls and
recording the grab point. -/
def DragState.start (intersects : List Intersection) (s : DragState) : DragState :=
  let s0 := { s with physicsObject := none }
  match findDraggable intersects with
  | some i =>
    { s0 with
        physicsObject := some i.obj
        grabDistance := i.distance
        active := true
        controlsEnabled := false
        localHit := i.obj.worldToLocal i.hitPoint
        worldHit := i.hitPoint
        currentWorld := i.hitPoint
        arrowVisible := true }
  | none => s0

/-- DragStateManager.update: refreshes the world-space grab point from the
grabbed object's current transform; a no-op when nothing is grabbed. -/
def DragState.update (s : DragState) : DragState :=
  match s.physicsObject with
  | some obj => { s with worldHit := obj.localToWorld s.localHit }
  | none => s

/-- DragStateManager.move: when a drag is active, records the new cursor
point on the grab sphere and refreshes the grab point. -/
def DragState.move (hit : Vec3) (s : DragState) : DragState :=
  if s.active then DragState.update { s with currentWorld := hit } else s

/-- DragStateManager.end: releases the object, deactivates the drag,
re-enables orbit controls and hides the helper arrow. -/
def DragState.endDrag (s : DragState) : DragState :=
  { s with
      physicsObject := none
      active := false
      controlsEnabled := true
      arrowVisible := false
      mouseDown := false }

/-- Pointer event kinds handled by DragStateManager.onPointer. -/
inductive PointerKind where
  | pointerdown
  | pointermove
  | pointerup
  | pointerout
  deriving DecidableEq, Repr

/-- A pointer event together with the environment data the handler derives
from it: the raycast hits for a press and the ray point for a move. -/
structure PointerEvt where
  kind : PointerKind
  intersects : List Intersection
  hit : Vec3

/-- DragStateManager.onPointer: dispatches one pointer event. -/
def DragState.onPointer (e : PointerEvt) (s : DragState) : DragState :=
  match e.kind with
  | PointerKind.pointerdown =>
    let s1 := DragState.start e.intersects s
    { s1 with mouseDown := true }
  | PointerKind.pointermove =>
    if s.mouseDown then
      (if s.active then DragState.move e.hit s else s)
    else s
  | PointerKind.pointerup => DragState.endDrag s
  | PointerKind.pointerout => DragState.endDrag s

/-- Drag-state invariant claimed by the spec: while a drag is active the
grabbed object is present and the orbit controls are disabled. -/
def dragInvariant (s : DragState) : Prop :=
  s.active = true → s.physicsObject.isSome = true ∧ s.controlsEnabled = false

/-!
Drag-force injection inside one physics substep of MuJoCoDemo.render
(MuJoCoSimulator.tsx, lines 202-240). Each substep first zeroes the applied
perturbation forces, then, when no action is running and an object is being
dragged, applies the drag force through simulation.applyForce, and finally
steps the simulation.
-/

/-- Force application handed to simulation.applyForce: linear force, torque,
application point (all in MuJoCo Z-up coordinates) and target body. -/
structure ForceApplication where
  force : Vec3
  torque : Vec3
  point : Vec3
  body : ℕ
  deriving Repr

/-- Truthiness of the optional action controller check
(!this.actionController || !this.actionController.isActionActive()):
the guard passes when no controller exists or its action is inactive. -/
def isActionActiveOpt : Option Bool → Bool
  | none => false
  | some b => b

/-- Drag handling of one physics substep: when the action guard passes and a
dragged object with a truthy bodyID exists, the grab point is refreshed and
the drag force (displacement from grab point to cursor point, scaled by
body_mass[bodyID] * 250 and converted to Z-up) is applied at the converted
grab point with zero torque. Returns the force application and the updated
drag state, or none when no force is applied. (The body/light resync that
precedes the force computation in the source only refreshes render nodes;
its effect on the grabbed object's transform is carried by localToWorld.) -/
def dragSubstepForce (actionController : Option Bool) (body_mass : Buffer)
    (dsm : DragState) : Option (ForceApplication × DragState) :=
  if isActionActiveOpt actionController = false then
    match dsm.physicsObject with
    | some dragged =>
      match dragged.bodyID with
      | some bodyID =>
        if bodyID ≠ 0 then
          let dsm1 := DragState.update dsm
          let dragForce := dsm1.currentWorld.subv dsm1.worldHit
          let force := toMujocoPos (dragForce.multiplyScalar (body_mass bodyID * 250))
          let point := toMujocoPos dsm1.worldHit
          some (⟨force, ⟨0, 0, 0⟩, point, bodyID⟩, dsm1)
        else none
      | none => none
    | none => none
  else none

/-- Zeroing of simulation.qfrc_applied at the start of a substep. -/
def clearQfrc (qfrc : List ℚ) : List ℚ :=
  qfrc.map (fun _ => 0)

/-- One physics substep viewed through qfrc_applied: clear the perturbation
array, inject the drag force (applyFn stands for the binary's applyForce
accumulation), then step the simulation (stepFn stands for the binary). -/
def physicsSubstepQfrc (stepFn : List ℚ → List ℚ)
    (applyFn : ForceApplication → List ℚ → List ℚ)
    (actionController : Option Bool) (body_mass : Buffer) (dsm : DragState)
    (qfrc : List ℚ) : List ℚ :=
  let cleared := clearQfrc qfrc
  let injected :=
    match dragSubstepForce actionController body_mass dsm with
    | some app => applyFn app.1 cleared
    | none => cleared
  stepFn injected

/-!
Body and light transform synchronization at the end of MuJoCoDemo.render
(MuJoCoSimulator.tsx, lines 258-282). Render nodes are stored in sparse
maps keyed by body or light index; indices without a node are skipped.
-/

/-- Render-scene node mirroring one physics body. -/
structure BodyNode where
  position : Vec3
  quaternion : Quat
  deriving DecidableEq, Repr

/-- Render-scene light node; lookAt is modelled by the world point the light
is aimed at. -/
structure LightNode where
  position : Vec3
  lookTarget : Vec3
  deriving DecidableEq, Repr

/-- Body loop of the sync block: for every body index below nbody that has a
render node, write the swizzled position and quaternion; other entries are
left untouched. -/
def updateBodyTransforms (nbody : ℕ) (xpos xquat : Buffer)
    (bodies : ℕ → Option BodyNode) : ℕ → Option BodyNode :=
  fun b =>
    if b < nbody then
      match bodies b with
      | some node =>
        some { position := getPosition xpos b node.position true
               quaternion := getQuaternion xquat b node.quaternion true }
      | none => none
    else bodies b

/-- Light loop of the sync block: position from light_xpos, aim point from
light_xdir added to the new position (tmpVec is fully overwritten by each
getPosition call, so its incoming value is irrelevant). -/
def updateLightTransforms (nlight : ℕ) (light_xpos light_xdir : Buffer)
    (tmpVec : Vec3) (lights : ℕ → Option LightNode) : ℕ → Option LightNode :=
  fun l =>
    if l < nlight then
      match lights l with
      | some node =>
        let pos := getPosition light_xpos l node.position true
        let dir := getPosition light_xdir l tmpVec true
        some { position := pos, lookTarget := dir.addv pos }
      | none => none
    else lights l

/-!
ZMPController (zmp-controller.ts). The walking controller maps actuator
names to indices, generates sinusoidal gait targets, and writes controls:
PD torque for motor actuators, the target angle itself for position servos.
Math.sin and Math.PI live outside the repository; they enter as the
uninterpreted rational function sinq and the rational constant piq.
-/

/-- PD controller gains for motor actuators. -/
structure PDGainsSpec where
  kp : ℚ
  kd : ℚ
  deriving DecidableEq, Repr

/-- PD_GAINS of zmp-controller.ts: kp = 100.0, kd = 10.0. -/
def PD_GAINS : PDGainsSpec :=
  { kp := 100, kd := 10 }

/-- pdController of action-controller.ts: torque from position error and
velocity damping (target velocity 0). -/
def pdController (targetAngle currentAngle currentVelocity kp kd : ℚ) : ℚ :=
  let error := targetAngle - currentAngle
  let errorDerivative := -currentVelocity
  kp * error + kd * errorDerivative

/-- Joint configuration for one robot type (actuator name lists). -/
structure JointConfig where
  hipPitch : List String
  hipRoll : List String
  hipYaw : Option (List String)
  knee : List String
  ankle : Option (List String)
  shoulderPitch : Option (List String)
  shoulderRoll : Option (List String)
  elbowPitch : Option (List String)
  deriving DecidableEq, Repr

/-- ZMPController.getJointConfig. -/
def getJointConfig (modelName : String) : JointConfig :=
  if modelName = "humanoid" then
    { hipPitch := ["right_hip_y", "left_hip_y"]
      hipRoll := ["right_hip_x", "left_hip_x"]
      hipYaw := none
      knee := ["right_knee", "left_knee"]
      ankle := some ["right_ankle_y", "left_ankle_y"]
      shoulderPitch := none, shoulderRoll := none, elbowPitch := none }
  else if modelName = "unitree_go2" then
    { hipPitch := ["FL_hip", "FR_hip", "RL_hip", "RR_hip"]
      hipRoll := ["FL_thigh", "FR_thigh", "RL_thigh", "RR_thigh"]
      hipYaw := none
      knee := ["FL_calf", "FR_calf", "RL_calf", "RR_calf"]
      ankle := none
      shoulderPitch := none, shoulderRoll := none, elbowPitch := none }
  else if modelName = "unitree_h1" then
    { hipPitch := ["left_hip_pitch", "right_hip_pitch"]
      hipRoll := ["left_hip_roll", "right_hip_roll"]
      hipYaw := none
      knee := ["left_knee", "right_knee"]
      ankle := some ["left_ankle", "right_ankle"]
      shoulderPitch := none, shoulderRoll := none, elbowPitch := none }
  else
    { hipPitch := [], hipRoll := [], hipYaw := none, knee := []
      ankle := none, shoulderPitch := none, shoulderRoll := none
      elbowPitch := none }

/-- ZMPController.identifyMotorActuators: only the Go2 hip actuators are
torque-controlled motors. -/
def identifyMotorActuators (modelName : String) : List String :=
  if modelName = "unitree_go2" then
    ["FL_hip", "FR_hip", "RL_hip", "RR_hip"]
  else []

/-- Null-terminated string read from the model names buffer, as done in
ZMPController.buildActuatorMap. -/
def readActuatorName (names : List ℕ) (addr : ℕ) : String :=
  String.mk (((names.drop addr).takeWhile (fun c => c != 0)).map Char.ofNat)

/-- ZMPController.buildActuatorMap: for each actuator index below nu, read
its name and record name -> index; empty names are skipped, and a repeated
name keeps the last index (JS object assignment). -/
def buildActuatorMap (nu : ℕ) (name_actuatoradr names : List ℕ) :
    String → Option ℕ :=
  (List.range nu).foldl
    (fun acc i =>
      match name_actuatoradr.get? i with
      | some addr =>
        let name := readActuatorName names addr
        if name = "" then acc
        else fun n => if n = name then some i else acc n
      | none => acc)
    (fun _ => none)

/-- Static data of one ZMPController instance, fixed at construction. -/
structure ZMPCtl where
  modelName : String
  actuatorMap : String → Option ℕ
  motorActuators : List String
  jointConfig : JointConfig
  actuator_trnid : Option (List ℤ)

/-- ZMPController construction from model data. -/
def ZMPCtl.make (modelName : String) (nu : ℕ) (name_actuatoradr names : List ℕ)
    (actuator_trnid : Option (List ℤ)) : ZMPCtl :=
  { modelName := modelName
    actuatorMap := buildActuatorMap nu name_actuatoradr names
    motorActuators := identifyMotorActuators modelName
    jointConfig := getJointConfig modelName
    actuator_trnid := actuator_trnid }

/-- ZMPController.getActuatorIndex: map lookup; a missing name yields null
(the warning bookkeeping has no semantic effect). -/
def getActuatorIndex (C : ZMPCtl) (actuatorName : String) : Option ℕ :=
  C.actuatorMap actuatorName

/-- Mutable controller state. -/
structure ZMPState where
  phase : ℚ
  isActive : Bool
  deriving DecidableEq, Repr

/-- Simulation arrays touched by the controller. -/
structure ZMPSim where
  ctrl : List ℚ
  qpos : List ℚ
  qvel : List ℚ
  deriving DecidableEq, Repr

/-- ZMPController.startAction: only the walk action activates the gait. -/
def ZMPCtl.startAction (action : String) (st : ZMPState) : ZMPState :=
  if action = "walk" then { st with isActive := true, phase := 0 } else st

/-- ZMPController.stopAction: deactivates the gait and zeroes every control. -/
def ZMPCtl.stopAction (st : ZMPState) (sim : ZMPSim) : ZMPState × ZMPSim :=
  ({ st with isActive := false }, { sim with ctrl := sim.ctrl.map (fun _ => 0) })

/-- ZMPController.generateSimpleGait: conservative sinusoidal targets as an
ordered name/angle association list (a JS Map with distinct keys inserted in
program order). -/
def generateSimpleGait (sinq : ℚ → ℚ) (piq : ℚ) (modelName : String)
    (cfg : JointConfig) (phase : ℚ) : List (String × ℚ) :=
  let freq : ℚ := 1/2
  let leftPhase := sinq (phase * freq * 2 * piq)
  let rightPhase := sinq (phase * freq * 2 * piq + piq)
  let hipAmp : ℚ := 1/10
  let kneeAmp : ℚ := 3/20
  let ankleAmp : ℚ := 1/20
  if modelName = "unitree_go2" then
    (if cfg.hipPitch.length = 4 then
      [(cfg.hipPitch.getD 0 "", leftPhase * hipAmp),
       (cfg.hipPitch.getD 1 "", rightPhase * hipAmp),
       (cfg.hipPitch.getD 2 "", rightPhase * hipAmp),
       (cfg.hipPitch.getD 3 "", leftPhase * hipAmp)]
     else []) ++
    (if cfg.hipRoll.length = 4 then
      [(cfg.hipRoll.getD 0 "", 1/20), (cfg.hipRoll.getD 1 "", -(1/20)),
       (cfg.hipRoll.getD 2 "", 1/20), (cfg.hipRoll.getD 3 "", -(1/20))]
     else []) ++
    (if cfg.knee.length = 4 then
      [(cfg.knee.getD 0 "", -(3/10) + |leftPhase| * kneeAmp),
       (cfg.knee.getD 1 "", -(3/10) + |rightPhase| * kneeAmp),
       (cfg.knee.getD 2 "", -(3/10) + |rightPhase| * kneeAmp),
       (cfg.knee.getD 3 "", -(3/10) + |leftPhase| * kneeAmp)]
     else [])
  else
    (if 2 ≤ cfg.hipPitch.length then
      [(cfg.hipPitch.getD 0 "", rightPhase * hipAmp),
       (cfg.hipPitch.getD 1 "", leftPhase * hipAmp)]
     else []) ++
    (if 2 ≤ cfg.hipRoll.length then
      [(cfg.hipRoll.getD 0 "", sinq (phase * freq * piq) * (3/100)),
       (cfg.hipRoll.getD 1 "", -(sinq (phase * freq * piq)) * (3/100))]
     else []) ++
    (if 2 ≤ cfg.knee.length then
      [(cfg.knee.getD 0 "", max 0 rightPhase * kneeAmp),
       (cfg.knee.getD 1 "", max 0 leftPhase * kneeAmp)]
     else []) ++
    (match cfg.ankle with
     | some ank =>
       if 2 ≤ ank.length then
         [(ank.getD 0 "", rightPhase * ankleAmp),
          (ank.getD 1 "", leftPhase * ankleAmp)]
       else []
     | none => [])

/-- One iteration of the targets.forEach body in ZMPController.update.
Array reads are modelled with checked access: the value none records an
out-of-bounds raw read, which the surrounding guards (mirrored from the
source) are meant to exclude. Writes use List.set at an index checked
against ctrl.length, as in the source. -/
def applyTarget (C : ZMPCtl) (sim : ZMPSim) (nameTarget : String × ℚ) :
    Option ZMPSim :=
  let actuatorName := nameTarget.1
  let targetAngle := nameTarget.2
  match getActuatorIndex C actuatorName with
  | none => some sim
  | some actuatorIdx =>
    if actuatorIdx < sim.ctrl.length then
      if C.motorActuators.contains actuatorName then
        let trnIdOpt : Option ℤ :=
          match C.actuator_trnid with
          | some trnid => trnid.get? (actuatorIdx * 2)
          | none => some (-1)
        match trnIdOpt with
        | none => some sim
        | some trnId =>
          if 0 ≤ trnId ∧ trnId < (sim.qpos.length : ℤ) then
            match sim.qpos.get? trnId.toNat with
            | none => none
            | some currentAngle =>
              let velIdx := trnId - 1
              let currentVelOpt : Option ℚ :=
                if 0 ≤ velIdx ∧ velIdx < (sim.qvel.length : ℤ) then
                  sim.qvel.get? velIdx.toNat
                else some 0
              match currentVelOpt with
              | none => none
              | some currentVel =>
                let error := targetAngle - currentAngle
                let torque := PD_GAINS.kp * error + PD_GAINS.kd * (-currentVel)
                some { sim with ctrl := sim.ctrl.set actuatorIdx torque }
          else some sim
      else
        some { sim with ctrl := sim.ctrl.set actuatorIdx targetAngle }
    else some sim

/-- ZMPController.update: does nothing unless the gait is active and the
action is walk; otherwise advances the phase by deltaTime, generates the
gait targets at the new phase and applies each one in order. -/
def ZMPCtl.update (C : ZMPCtl) (sinq : ℚ → ℚ) (piq : ℚ) (deltaTime : ℚ)
    (action : String) (st : ZMPState) (sim : ZMPSim) :
    Option (ZMPState × ZMPSim) :=
  if st.isActive = false ∨ action ≠ "walk" then some (st, sim)
  else
    let st1 := { st with phase := st.phase + deltaTime }
    let targets := generateSimpleGait sinq piq C.modelName C.jointConfig st1.phase
    (targets.foldlM (applyTarget C) sim).map (fun sim1 => (st1, sim1))

/-!
Model loading and switching (mujoco-loader.ts loadRobotModel and the
MuJoCoSimulator component, MuJoCoSimulator.tsx lines 299-342 and 373-379).
Network fetches enter as oracle data: a FetchResponse for the model file,
and for the component an indexed oracle of load outcomes with a counter of
load calls made, which makes the number of attempts observable.
-/

/-- Outcome of the browser fetch of the model file. -/
structure FetchResponse where
  ok : Bool
  statusText : String
  text : String
  deriving DecidableEq, Repr

/-- JS String.prototype.trim: strips leading and trailing whitespace. The
built-in String.trim of Lean is byte-level and opaque to evaluation, so the
same function is written over the character list. -/
def jsTrim (s : String) : String :=
  String.mk (((s.toList.dropWhile Char.isWhitespace).reverse.dropWhile
    Char.isWhitespace).reverse)

/-- String.lastIndexOf for one character, with the JS convention that a
missing character yields -1. -/
def lastIndexOfChar (s : String) (c : Char) : ℤ :=
  match s.toList.reverse.findIdx? (fun ch => ch == c) with
  | some i => (s.length : ℤ) - 1 - (i : ℤ)
  | none => -1

/-- JS String.substring(0, e): negative bounds clamp to 0. -/
def substringTo (s : String) (e : ℤ) : String :=
  String.mk (s.toList.take e.toNat)

/-- JS String.substring(b): negative bounds clamp to 0. -/
def substringFrom (s : String) (b : ℤ) : String :=
  String.mk (s.toList.drop b.toNat)

/-- VFS-relative path computed by loadRobotModel for a successfully fetched
model: directory part without its leading slash, joined with the filename. -/
def loadRobotModelVFSPath (modelPath : String) : String :=
  let slashIdx := lastIndexOfChar modelPath '/'
  let modelDir := substringTo modelPath slashIdx
  let modelSubDir := if 1 < modelDir.length then substringFrom modelDir 1 else ""
  let filename := substringFrom modelPath (slashIdx + 1)
  if modelSubDir ≠ "" then modelSubDir ++ "/" ++ filename else filename

/-- loadRobotModel, fetch-and-validate part: rejects on a non-ok response or
on empty fetched content, otherwise resolves with the VFS-relative path.
Include and asset fetch failures deeper in the function are logged warnings,
never rejections, and do not affect the result path. -/
def loadRobotModel (modelPath : String) (response : FetchResponse) :
    Except String String :=
  if response.ok = false then
    Except.error ("Failed to load model from " ++ modelPath ++ ": " ++
      response.statusText)
  else
    let xmlContent := response.text
    if xmlContent = "" ∨ (jsTrim xmlContent).length = 0 then
      Except.error ("Model file " ++ modelPath ++ " is empty or invalid")
    else
      Except.ok (loadRobotModelVFSPath modelPath)

/-- Keys of ROBOT_MODELS (robot-models.ts). -/
def ROBOT_MODELS_KEYS : List String :=
  ["humanoid", "unitree_go2", "unitree_h1"]

/-- React state of the MuJoCoSimulator component together with the shared
demo pause flag. -/
structure ComponentState where
  isMounted : Bool
  error : Option String
  currentModel : String
  physicsPaused : Bool
  isLoadingModel : Bool
  demoPaused : Bool
  deriving DecidableEq, Repr

/-- What the component function returns. -/
inductive ComponentView where
  | loadingScreen
  | errorScreen (message : String)
  | mainView
  deriving DecidableEq, Repr

/-- switchModelLocal: validates the key, pauses physics and shows the
loading flag, performs exactly one load attempt through the oracle (the
counter k names the attempt), and on success installs the new model and
resumes physics; the load error is re-thrown to the caller and the loading
flag is always cleared. Returns the new state, the propagated outcome and
the new call counter. -/
def switchModelLocal (loader : ℕ → Except String Unit) (k : ℕ)
    (s : ComponentState) (modelKey : String) :
    ComponentState × Except String Unit × ℕ :=
  if ROBOT_MODELS_KEYS.contains modelKey = false then
    (s, Except.error ("Invalid model key: " ++ modelKey), k)
  else
    let s1 := { s with demoPaused := true, physicsPaused := true,
                       isLoadingModel := true }
    match loader k with
    | Except.ok _ =>
      ({ s1 with currentModel := modelKey, demoPaused := false,
                 physicsPaused := false, isLoadingModel := false },
       Except.ok (), k + 1)
    | Except.error e =>
      ({ s1 with isLoadingModel := false }, Except.error e, k + 1)

/-- handleModelChange: when a demo exists and the key differs from the
current model, runs one switch; a thrown failure is caught here, once, and
recorded as the component error state. -/
def handleModelChange (demoExists : Bool) (loader : ℕ → Except String Unit)
    (k : ℕ) (s : ComponentState) (model : String) : ComponentState × ℕ :=
  if demoExists = true ∧ model ≠ s.currentModel then
    let r := switchModelLocal loader k s model
    match r.2.1 with
    | Except.ok _ => (r.1, r.2.2)
    | Except.error e => ({ r.1 with error := some e }, r.2.2)
  else (s, k)

/-- Render branch of the MuJoCoSimulator component: loading screen before
mount, full-screen error view when an error is recorded, main view
otherwise. -/
def renderComponent (s : ComponentState) : ComponentView :=
  if s.isMounted = false then ComponentView.loadingScreen
  else
    match s.error with
    | some e => ComponentView.errorScreen e
    | none => ComponentView.mainView

/-!
Simulation reset (MuJoCoDemo.resetSimulation, MuJoCoSimulator.tsx lines
166-171). The reset calls simulation.resetData() and simulation.forward(),
both implemented by the MuJoCo WebAssembly binary outside this repository.
-/

/-- Simulation state touched by a reset. -/
structure MjSimState where
  ctrl : List ℚ
  qpos : List ℚ
  qvel : List ℚ
  xpos : List ℚ
  deriving DecidableEq, Repr

/-- Modelled from the spec: simulation.resetData is provided by the physics
binary, which is not part of this repository; per the spec sentence that the
reset zeroes the control array, it restores default state, zeroing the
controls and velocities and restoring the reference configuration qpos0. -/
def MjSim.resetData (qpos0 : List ℚ) (s : MjSimState) : MjSimState :=
  { s with ctrl := s.ctrl.map (fun _ => 0)
           qvel := s.qvel.map (fun _ => 0)
           qpos := qpos0 }

/-- Modelled from the spec: simulation.forward is provided by the physics
binary; it recomputes derived quantities (here the body positions, through
the opaque kinematics fk) from the configuration and writes no input array
such as ctrl. -/
def MjSim.forward (fk : List ℚ → List ℚ) (s : MjSimState) : MjSimState :=
  { s with xpos := fk s.qpos }

/-- MuJoCoDemo.resetSimulation: when a simulation exists (resetData is
always a function on the binary's simulation object), reset its data and
run forward. -/
def resetSimulation (fk : List ℚ → List ℚ) (qpos0 : List ℚ)
    (simulation : Option MjSimState) : Option MjSimState :=
  simulation.map (fun s => MjSim.forward fk (MjSim.resetData qpos0 s))

/-!
Concrete instances used to evaluate the embedded operations on explicit
inputs.
-/

/-- A drag state holding a grabbed unit-transform object with bodyID 1, grab
point (1,0,0) and cursor point (2,0,0). -/
def c4dsmW : DragState :=
  { DragState.init with
      physicsObject := some ⟨some 1, fun v => v, fun v => v⟩
      active := true
      mouseDown := true
      controlsEnabled := false
      arrowVisible := true
      localHit := ⟨1, 0, 0⟩
      worldHit := ⟨1, 0, 0⟩
      currentWorld := ⟨2, 0, 0⟩ }

/-- The drag state after refreshing the grab point. -/
def c4dsm1W : DragState := DragState.update c4dsmW

/-- The force application produced for c4dsmW with body mass 3:
displacement (1,0,0) scaled by 3 * 250 (so (750,0,0)), zero torque, at the
grab point (1,0,0). -/
def c4appW : ForceApplication :=
  ⟨toMujocoPos ((c4dsm1W.currentWorld.subv c4dsm1W.worldHit).multiplyScalar
      (3 * 250)),
   ⟨0, 0, 0⟩, toMujocoPos c4dsm1W.worldHit, 1⟩

/-- A draggable scene object with bodyID 1 and identity transforms. -/
def c9objW : PhysObj := ⟨some 1, fun v => v, fun v => v⟩

/-- A raycast hit on c9objW at distance 1. -/
def c9hitW : Intersection := ⟨c9objW, 1, ⟨0, 0, 0⟩⟩

/-- A pointer press whose raycast hits the draggable object. -/
def c9evDown1 : PointerEvt := ⟨PointerKind.pointerdown, [c9hitW], ⟨0, 0, 0⟩⟩

/-- A second pointer press (as delivered by a second touch contact) whose
raycast hits nothing. -/
def c9evDown2 : PointerEvt := ⟨PointerKind.pointerdown, [], ⟨0, 0, 0⟩⟩

/-- A pointer release. -/
def c9evUp : PointerEvt := ⟨PointerKind.pointerup, [], ⟨0, 0, 0⟩⟩

/-- State after pressing on the draggable object. -/
def c9sAfterDown : DragState := DragState.onPointer c9evDown1 DragState.init

/-- State after a drag was started and a second press found no object:
start clears physicsObject but leaves active untouched. -/
def c9badState : DragState := DragState.onPointer c9evDown2 c9sAfterDown

/-- A names buffer holding the null-terminated actuator names FL_hip (at
address 0) and FL_thigh (at address 7), as character codes. -/
def c5namesW : List ℕ :=
  [70, 76, 95, 104, 105, 112, 0, 70, 76, 95, 116, 104, 105, 103, 104, 0]

/-- A Go2 controller with two actuators: FL_hip (motor, transmission joint
7) and FL_thigh (position servo). -/
def c5CW : ZMPCtl :=
  ZMPCtl.make "unitree_go2" 2 [0, 7] c5namesW (some [7, 0, 9, 0])

/-- A simulation with two controls, eight qpos entries (qpos[7] = 4) and
seven qvel entries (qvel[6] = 5). -/
def c5simW : ZMPSim :=
  ⟨[0, 0], [0, 0, 0, 0, 0, 0, 0, 4], [0, 0, 0, 0, 0, 0, 5]⟩

/-- A simulation like c5simW but with an empty qvel array, so the motor
velocity index is out of range. -/
def c10simW : ZMPSim :=
  ⟨[0, 0], [0, 0, 0, 0, 0, 0, 0, 4], []⟩

/-- The catch-up loop with positive dt and enough fuel performs exactly
ceil((timeMS - t) / dt) (taken at 0 when negative) substeps, each advancing
the clock by dt. -/
theorem stepLoop_spec (dt : ℚ) (hdt : 0 < dt) :
    ∀ (fuel : ℕ) (timeMS t : ℚ), (Int.ceil ((timeMS - t) / dt)).toNat ≤ fuel →
      stepLoop fuel dt timeMS t =
        some ((Int.ceil ((timeMS - t) / dt)).toNat,
          t + ((Int.ceil ((timeMS - t) / dt)).toNat : ℚ) * dt) := by
  have hdt' : dt ≠ 0 := ne_of_gt hdt
  intro fuel
  induction fuel with
  | zero =>
    intro timeMS t hfuel
    have hN : (Int.ceil ((timeMS - t) / dt)).toNat = 0 := Nat.le_zero.mp hfuel
    have hceil : Int.ceil ((timeMS - t) / dt) ≤ 0 := by
      by_contra hpos
      push_neg at hpos
      have := Int.toNat_of_nonneg (le_of_lt hpos)
      omega
    have hquot : (timeMS - t) / dt ≤ 0 := by
      have h0 : (timeMS - t) / dt ≤ ((0 : ℤ) : ℚ) := Int.ceil_le.mp hceil
      simpa using h0
    have hsub : timeMS - t ≤ 0 := by
      have h1 := mul_le_mul_of_nonneg_right hquot (le_of_lt hdt)
      rwa [div_mul_cancel₀ _ hdt', zero_mul] at h1
    have hnlt : ¬ t < timeMS := by linarith
    simp [stepLoop, hnlt, hN]
  | succ f ih =>
    intro timeMS t hfuel
    by_cases ht : t < timeMS
    · have hqpos : 0 < (timeMS - t) / dt := div_pos (by linarith) hdt
      have hcpos : 0 < Int.ceil ((timeMS - t) / dt) := Int.ceil_pos.mpr hqpos
      have hNpos : 0 < (Int.ceil ((timeMS - t) / dt)).toNat := by
        omega
      have hstepq : (timeMS - (t + dt)) / dt = (timeMS - t) / dt - 1 := by
        field_simp
        ring
      have hceilstep : Int.ceil ((timeMS - (t + dt)) / dt) =
          Int.ceil ((timeMS - t) / dt) - 1 := by
        rw [hstepq, Int.ceil_sub_one]
      have hNstep : (Int.ceil ((timeMS - (t + dt)) / dt)).toNat =
          (Int.ceil ((timeMS - t) / dt)).toNat - 1 := by
        rw [hceilstep]
        omega
      have hfuel' : (Int.ceil ((timeMS - (t + dt)) / dt)).toNat ≤ f := by
        rw [hNstep]; omega
      have hrec := ih timeMS (t + dt) hfuel'
      have hcast : (((Int.ceil ((timeMS - t) / dt)).toNat - 1 : ℕ) : ℚ) =
          ((Int.ceil ((timeMS - t) / dt)).toNat : ℚ) - 1 :=
        Nat.cast_sub hNpos
      rw [hNstep] at hrec
      simp only [stepLoop, ht, if_pos, hrec]
      have hn : (Int.ceil ((timeMS - t) / dt)).toNat - 1 + 1 =
          (Int.ceil ((timeMS - t) / dt)).toNat := by omega
      have htf : t + dt + (((Int.ceil ((timeMS - t) / dt)).toNat - 1 : ℕ) : ℚ) * dt =
          t + ((Int.ceil ((timeMS - t) / dt)).toNat : ℚ) * dt := by
        rw [hcast]; ring
      rw [hn, htf]
    · have hsub : timeMS - t ≤ 0 := by linarith
      have hquot : (timeMS - t) / dt ≤ 0 :=
        div_nonpos_of_nonpos_of_nonneg hsub (le_of_lt hdt)
      have hceil : Int.ceil ((timeMS - t) / dt) ≤ 0 := by
        have : Int.ceil ((timeMS - t) / dt) ≤ Int.ceil (0 : ℚ) := Int.ceil_le_ceil hquot
        simpa using this
      have hN : (Int.ceil ((timeMS - t) / dt)).toNat = 0 := by omega
      simp [stepLoop, ht, hN]

/-- C1: with a loaded model and physics not paused, the clock is snapped when
it lags the frame time by more than 35 ms, and for every positive timestep
the catch-up loop terminates having advanced the clock by timestep * 1000 per
substep until it reaches the frame time, within ceil(35 / (timestep * 1000)) + 1
substeps. -/
theorem c1_catchup_loop_terminates_and_bounded
    (timestep mujocoTime timeMS : ℚ) (hdt : 0 < timestep) :
    ∃ n tf, renderClock false true timestep mujocoTime timeMS = some (n, tf) ∧
      n ≤ (Int.ceil (35 / (timestep * 1000))).toNat + 1 ∧
      timeMS ≤ tf ∧
      tf = snapTime mujocoTime timeMS + (n : ℚ) * (timestep * 1000) := by
  set dt := timestep * 1000 with hdtdef
  have hdt' : 0 < dt := by positivity
  set t1 := snapTime mujocoTime timeMS with ht1
  have hlag : timeMS - t1 ≤ 35 := by
    rw [ht1]
    unfold snapTime
    by_cases h : timeMS - mujocoTime > 35
    · simp [h]
    · simp only [h, if_neg, if_false]
      linarith [not_lt.mp h]
  have hmono : Int.ceil ((timeMS - t1) / dt) ≤ Int.ceil (35 / dt) :=
    Int.ceil_le_ceil (div_le_div_of_nonneg_right hlag (le_of_lt hdt'))
  have hNle : (Int.ceil ((timeMS - t1) / dt)).toNat ≤ (Int.ceil (35 / dt)).toNat := by
    omega
  have hfuel : (Int.ceil ((timeMS - t1) / dt)).toNat ≤ substepBudget dt := by
    unfold substepBudget
    omega
  have hloop := stepLoop_spec dt hdt' (substepBudget dt) timeMS t1 hfuel
  refine ⟨(Int.ceil ((timeMS - t1) / dt)).toNat,
    t1 + ((Int.ceil ((timeMS - t1) / dt)).toNat : ℚ) * dt, ?_, ?_, ?_, rfl⟩
  · unfold renderClock
    simp only [and_self, if_pos]
    exact hloop
  · omega
  · by_cases hle : timeMS ≤ t1
    · have : (0 : ℚ) ≤ ((Int.ceil ((timeMS - t1) / dt)).toNat : ℚ) * dt := by
        positivity
      linarith
    · push_neg at hle
      have hqpos : 0 < (timeMS - t1) / dt := div_pos (by linarith) hdt'
      have hcpos : 0 < Int.ceil ((timeMS - t1) / dt) := Int.ceil_pos.mpr hqpos
      have hcast : ((Int.ceil ((timeMS - t1) / dt)).toNat : ℚ) =
          ((Int.ceil ((timeMS - t1) / dt) : ℤ) : ℚ) := by
        exact_mod_cast Int.toNat_of_nonneg (le_of_lt hcpos)
      have hge : (timeMS - t1) / dt ≤ ((Int.ceil ((timeMS - t1) / dt) : ℤ) : ℚ) :=
        Int.le_ceil _
      have : (timeMS - t1) ≤ ((Int.ceil ((timeMS - t1) / dt) : ℤ) : ℚ) * dt := by
        have h1 := mul_le_mul_of_nonneg_right hge (le_of_lt hdt')
        rwa [div_mul_cancel₀ _ (ne_of_gt hdt')] at h1
      rw [hcast]
      linarith

/-- C1 witness: timestep 1, clock 0, frame time 10; one substep suffices. -/
theorem c1_catchup_loop_terminates_and_bounded_witness :
    0 < (1 : ℚ) ∧
    ∃ n tf, renderClock false true 1 0 10 = some (n, tf) ∧
      n ≤ (Int.ceil (35 / ((1 : ℚ) * 1000))).toNat + 1 ∧
      (10 : ℚ) ≤ tf ∧
      tf = snapTime 0 10 + (n : ℚ) * (1 * 1000) :=
  ⟨by norm_num, c1_catchup_loop_terminates_and_bounded 1 0 10 (by norm_num)⟩

/-- C2: the Z-up-to-Y-up position conversion used by getPosition maps
(x, y, z) to (x, z, -y), toMujocoPos maps (x, y, z) to (x, -z, y), and the
two maps are mutually inverse in either composition order. -/
theorem c2_coordinate_conversions_mutually_inverse (v t : Vec3) :
    getPosition (bufferOfVec v) 0 t true = Vec3.mk v.x v.z (-v.y) ∧
    toMujocoPos v = Vec3.mk v.x (-v.z) v.y ∧
    toMujocoPos (getPosition (bufferOfVec v) 0 t true) = v ∧
    getPosition (bufferOfVec (toMujocoPos v)) 0 t true = v := by
  obtain ⟨a, b, c⟩ := v
  refine ⟨?_, ?_, ?_, ?_⟩ <;>
    simp [getPosition, toMujocoPos, bufferOfVec, Vec3.set]

/-- C2 witness at a concrete vector. -/
theorem c2_coordinate_conversions_mutually_inverse_witness :
    getPosition (bufferOfVec ⟨1, 2, 3⟩) 0 ⟨0, 0, 0⟩ true = Vec3.mk 1 3 (-2) ∧
    toMujocoPos ⟨1, 2, 3⟩ = Vec3.mk 1 (-3) 2 ∧
    toMujocoPos (getPosition (bufferOfVec ⟨1, 2, 3⟩) 0 ⟨0, 0, 0⟩ true) = ⟨1, 2, 3⟩ ∧
    getPosition (bufferOfVec (toMujocoPos ⟨1, 2, 3⟩)) 0 ⟨0, 0, 0⟩ true = ⟨1, 2, 3⟩ :=
  c2_coordinate_conversions_mutually_inverse ⟨1, 2, 3⟩ ⟨0, 0, 0⟩

/-- C3: after the user-triggered reset of the simulation completes, every
element of simulation.ctrl equals 0 (resetData is modelled from the spec,
being implemented by the physics binary outside this repository). -/
theorem c3_reset_zeroes_control_array (fk : List ℚ → List ℚ) (qpos0 : List ℚ)
    (s s' : MjSimState) (h : resetSimulation fk qpos0 (some s) = some s') :
    ∀ i, i < s'.ctrl.length → s'.ctrl.get? i = some 0 := by
  have hs : s' = MjSim.forward fk (MjSim.resetData qpos0 s) := by
    simpa [resetSimulation] using h.symm
  subst hs
  intro i hi
  simp only [MjSim.forward, MjSim.resetData, List.length_map] at hi ⊢
  rw [List.get?_map, List.get?_eq_get hi]
  rfl

/-- C3 witness: resetting a concrete two-control simulation zeroes ctrl. -/
theorem c3_reset_zeroes_control_array_witness :
    resetSimulation (fun l => l) [0] (some ⟨[5, 7], [1], [2], [3]⟩) =
      some ⟨[0, 0], [0], [0], [0]⟩ ∧
    (MjSimState.mk [0, 0] [0] [0] [0]).ctrl.get? 0 = some 0 :=
  ⟨rfl, c3_reset_zeroes_control_array (fun l => l) [0] ⟨[5, 7], [1], [2], [3]⟩
    ⟨[0, 0], [0], [0], [0]⟩ rfl 0 (by decide)⟩

/-- C6: at the end of a render frame every body index below nbody that has a
render node receives the swizzled xpos position and xquat quaternion, every
light index below nlight with a node receives its light_xpos position and is
aimed along light_xdir from that position, and indices without a node are
skipped with no write. -/
theorem c6_body_and_light_transform_sync (nbody nlight : ℕ)
    (xpos xquat lxpos lxdir : Buffer) (tmpVec : Vec3)
    (bodies : ℕ → Option BodyNode) (lights : ℕ → Option LightNode) :
    (∀ b node, b < nbody → bodies b = some node →
      updateBodyTransforms nbody xpos xquat bodies b =
        some ⟨getPosition xpos b node.position true,
              getQuaternion xquat b node.quaternion true⟩) ∧
    (∀ b, bodies b = none → updateBodyTransforms nbody xpos xquat bodies b = none) ∧
    (∀ b, nbody ≤ b → updateBodyTransforms nbody xpos xquat bodies b = bodies b) ∧
    (∀ l node, l < nlight → lights l = some node →
      updateLightTransforms nlight lxpos lxdir tmpVec lights l =
        some ⟨getPosition lxpos l node.position true,
              (getPosition lxdir l tmpVec true).addv
                (getPosition lxpos l node.position true)⟩) ∧
    (∀ l, lights l = none →
      updateLightTransforms nlight lxpos lxdir tmpVec lights l = lights l) := by
  refine ⟨?_, ?_, ?_, ?_, ?_⟩
  · intro b node hb hnode
    simp [updateBodyTransforms, hb, hnode]
  · intro b hnone
    by_cases hb : b < nbody <;> simp [updateBodyTransforms, hb, hnone]
  · intro b hb
    have : ¬ b < nbody := not_lt.mpr hb
    simp [updateBodyTransforms, this]
  · intro l node hl hnode
    simp [updateLightTransforms, hl, hnode]
  · intro l hnone
    by_cases hl : l < nlight <;> simp [updateLightTransforms, hl, hnone]

/-- C6 witness: a one-body, one-light scene evaluated concretely. -/
theorem c6_body_and_light_transform_sync_witness :
    updateBodyTransforms 1 (bufferOfVec ⟨1, 2, 3⟩) (fun _ => 1)
      (fun _ => some ⟨⟨0, 0, 0⟩, ⟨0, 0, 0, 0⟩⟩) 0 =
      some ⟨⟨1, 3, -2⟩, ⟨-1, -1, 1, -1⟩⟩ ∧
    updateLightTransforms 1 (bufferOfVec ⟨1, 2, 3⟩) (bufferOfVec ⟨1, 1, 1⟩)
      ⟨0, 0, 0⟩ (fun _ => some ⟨⟨0, 0, 0⟩, ⟨0, 0, 0⟩⟩) 0 =
      some ⟨⟨1, 3, -2⟩, ⟨2, 4, -3⟩⟩ := by
  have h := c6_body_and_light_transform_sync 1 1 (bufferOfVec ⟨1, 2, 3⟩)
    (fun _ => 1) (bufferOfVec ⟨1, 2, 3⟩) (bufferOfVec ⟨1, 1, 1⟩) ⟨0, 0, 0⟩
    (fun _ => some ⟨⟨0, 0, 0⟩, ⟨0, 0, 0, 0⟩⟩) (fun _ => some ⟨⟨0, 0, 0⟩, ⟨0, 0, 0⟩⟩)
  constructor
  · have h1 := h.1 0 ⟨⟨0, 0, 0⟩, ⟨0, 0, 0, 0⟩⟩ (by decide) rfl
    rw [h1]
    simp [getPosition, getQuaternion, bufferOfVec, Vec3.set, Quat.set]
  · have h2 := h.2.2.2.1 0 ⟨⟨0, 0, 0⟩, ⟨0, 0, 0⟩⟩ (by decide) rfl
    rw [h2]
    simp [getPosition, bufferOfVec, Vec3.set, Vec3.addv]
    norm_num

/-- C8: every physics substep zeroes every element of qfrc_applied first,
and only then injects the drag force and steps the simulation. -/
theorem c8_qfrc_applied_cleared_every_substep
    (stepFn : List ℚ → List ℚ) (applyFn : ForceApplication → List ℚ → List ℚ)
    (actionController : Option Bool) (body_mass : Buffer) (dsm : DragState)
    (qfrc : List ℚ) :
    physicsSubstepQfrc stepFn applyFn actionController body_mass dsm qfrc =
      stepFn (match dragSubstepForce actionController body_mass dsm with
        | some app => applyFn app.1 (clearQfrc qfrc)
        | none => clearQfrc qfrc) ∧
    (clearQfrc qfrc).length = qfrc.length ∧
    (∀ i, i < qfrc.length → (clearQfrc qfrc).get? i = some 0) := by
  refine ⟨rfl, List.length_map _ _, ?_⟩
  intro i hi
  rw [clearQfrc, List.get?_map, List.get?_eq_get hi]
  rfl

/-- C8 witness: a concrete two-entry perturbation array is cleared. -/
theorem c8_qfrc_applied_cleared_every_substep_witness :
    (clearQfrc [3, 4]).length = ([3, 4] : List ℚ).length ∧
    (clearQfrc [3, 4]).get? 0 = some 0 ∧
    (clearQfrc [3, 4]).get? 1 = some 0 := by
  have h := c8_qfrc_applied_cleared_every_substep (fun l => l) (fun _ l => l)
    none (fun _ => 0) DragState.init [3, 4]
  exact ⟨h.2.1, h.2.2 0 (by decide), h.2.2 1 (by decide)⟩

/-- C4: a drag force is applied in a substep only when no action is active
and a dragged object with a truthy bodyID exists; the applied force is the
displacement from the refreshed grab point to the cursor point, scaled by
body_mass[bodyID] * 250 and converted to Z-up, with zero torque, applied at
the converted grab point; while an action is active no force is applied. -/
theorem c4_drag_force_injection (actionController : Option Bool)
    (body_mass : Buffer) (dsm : DragState) :
    (isActionActiveOpt actionController = true →
      dragSubstepForce actionController body_mass dsm = none) ∧
    (∀ app dsm1,
      dragSubstepForce actionController body_mass dsm = some (app, dsm1) →
      isActionActiveOpt actionController = false ∧
      ∃ dragged bodyID, dsm.physicsObject = some dragged ∧
        dragged.bodyID = some bodyID ∧ bodyID ≠ 0 ∧
        dsm1 = DragState.update dsm ∧
        app.force = toMujocoPos
          ((dsm1.currentWorld.subv dsm1.worldHit).multiplyScalar
            (body_mass bodyID * 250)) ∧
        app.torque = ⟨0, 0, 0⟩ ∧
        app.point = toMujocoPos dsm1.worldHit ∧
        app.body = bodyID) := by
  constructor
  · intro h
    simp [dragSubstepForce, h]
  · intro app dsm1 hsome
    unfold dragSubstepForce at hsome
    by_cases hac : isActionActiveOpt actionController = false
    · rw [if_pos hac] at hsome
      refine ⟨hac, ?_⟩
      cases hobj : dsm.physicsObject with
      | none => rw [hobj] at hsome; simp at hsome
      | some dragged =>
        rw [hobj] at hsome
        simp only [] at hsome
        cases hbid : dragged.bodyID with
        | none => rw [hbid] at hsome; simp at hsome
        | some bodyID =>
          rw [hbid] at hsome
          simp only [] at hsome
          by_cases hz : bodyID = 0
          · rw [if_neg (not_not_intro hz)] at hsome
            simp at hsome
          · rw [if_pos hz] at hsome
            simp only [Option.some.injEq, Prod.mk.injEq] at hsome
            obtain ⟨happ, hdsm1⟩ := hsome
            subst happ
            subst hdsm1
            exact ⟨dragged, bodyID, rfl, hbid, hz, rfl, rfl, rfl, rfl, rfl⟩
    · rw [if_neg hac] at hsome
      simp at hsome

/-- C4 witness: with an active action no force is applied, and with no
action the concrete grabbed body receives exactly the scaled displacement
force. -/
theorem c4_drag_force_injection_witness :
    dragSubstepForce (some true) (fun _ => 3) c4dsmW = none ∧
    (isActionActiveOpt none = false ∧
      ∃ dragged bodyID, c4dsmW.physicsObject = some dragged ∧
        dragged.bodyID = some bodyID ∧ bodyID ≠ 0 ∧
        c4dsm1W = DragState.update c4dsmW ∧
        c4appW.force = toMujocoPos
          ((c4dsm1W.currentWorld.subv c4dsm1W.worldHit).multiplyScalar
            ((fun _ => (3 : ℚ)) bodyID * 250)) ∧
        c4appW.torque = ⟨0, 0, 0⟩ ∧
        c4appW.point = toMujocoPos c4dsm1W.worldHit ∧
        c4appW.body = bodyID) ∧
    c4appW.force = ⟨750, 0, 0⟩ := by
  refine ⟨(c4_drag_force_injection (some true) (fun _ => 3) c4dsmW).1 rfl,
    (c4_drag_force_injection none (fun _ => 3) c4dsmW).2 c4appW c4dsm1W rfl, ?_⟩
  simp [c4appW, c4dsm1W, c4dsmW, DragState.update, DragState.init,
    toMujocoPos, Vec3.set, Vec3.subv, Vec3.multiplyScalar]
  norm_num

/-- C7: loadRobotModel rejects on a non-ok fetch and on empty fetched
content; a failing model switch performs exactly one load attempt, the
failure is caught once and recorded as the component error state, and the
component then renders the full-screen error view. -/
theorem c7_error_handling_catch_and_display (modelPath : String)
    (resp : FetchResponse) (loader : ℕ → Except String Unit) (k : ℕ)
    (s : ComponentState) (model e : String) :
    (resp.ok = false → loadRobotModel modelPath resp =
      Except.error ("Failed to load model from " ++ modelPath ++ ": " ++
        resp.statusText)) ∧
    (resp.ok = true → (resp.text = "" ∨ (jsTrim resp.text).length = 0) →
      loadRobotModel modelPath resp =
        Except.error ("Model file " ++ modelPath ++ " is empty or invalid")) ∧
    (ROBOT_MODELS_KEYS.contains model = true → model ≠ s.currentModel →
      (handleModelChange true loader k s model).2 = k + 1) ∧
    (ROBOT_MODELS_KEYS.contains model = true → model ≠ s.currentModel →
      loader k = Except.error e →
      (handleModelChange true loader k s model).1.error = some e ∧
      (handleModelChange true loader k s model).1.isLoadingModel = false ∧
      ((handleModelChange true loader k s model).1.isMounted = true →
        renderComponent (handleModelChange true loader k s model).1 =
          ComponentView.errorScreen e)) := by
  refine ⟨?_, ?_, ?_, ?_⟩
  · intro h
    simp [loadRobotModel, h]
  · intro hok hempty
    unfold loadRobotModel
    rw [if_neg (by simp [hok]), if_pos hempty]
  · intro hc hne
    have hmem : model ∈ ROBOT_MODELS_KEYS := by simpa using hc
    cases hl : loader k <;>
      simp [handleModelChange, hne, switchModelLocal, hmem, hl]
  · intro hc hne hl
    have hmem : model ∈ ROBOT_MODELS_KEYS := by simpa using hc
    refine ⟨?_, ?_, ?_⟩
    · simp [handleModelChange, hne, switchModelLocal, hmem, hl]
    · simp [handleModelChange, hne, switchModelLocal, hmem, hl]
    · intro hm
      simp [handleModelChange, hne, switchModelLocal, hmem, hl] at hm
      simp [handleModelChange, hne, switchModelLocal, hmem, hl,
        renderComponent, hm]

/-- C7 witness: a 404 fetch and a whitespace-only fetch are rejected, and a
concrete failing switch is recorded once and rendered as the error view. -/
theorem c7_error_handling_catch_and_display_witness :
    loadRobotModel "/humanoid.xml" ⟨false, "Not Found", ""⟩ =
      Except.error "Failed to load model from /humanoid.xml: Not Found" ∧
    loadRobotModel "/humanoid.xml" ⟨true, "OK", " "⟩ =
      Except.error "Model file /humanoid.xml is empty or invalid" ∧
    (handleModelChange true (fun _ => Except.error "boom") 0
      ⟨true, none, "humanoid", false, false, false⟩ "unitree_go2").2 = 0 + 1 ∧
    renderComponent (handleModelChange true (fun _ => Except.error "boom") 0
      ⟨true, none, "humanoid", false, false, false⟩ "unitree_go2").1 =
      ComponentView.errorScreen "boom" := by
  have h := c7_error_handling_catch_and_display "/humanoid.xml"
    ⟨false, "Not Found", ""⟩ (fun _ => Except.error "boom") 0
    ⟨true, none, "humanoid", false, false, false⟩ "unitree_go2" "boom"
  have h2 := c7_error_handling_catch_and_display "/humanoid.xml"
    ⟨true, "OK", " "⟩ (fun _ => Except.error "boom") 0
    ⟨true, none, "humanoid", false, false, false⟩ "unitree_go2" "boom"
  refine ⟨h.1 rfl, h2.2.1 rfl (Or.inr (by decide)), h.2.2.1 (by decide) (by decide), ?_⟩
  have h4 := h.2.2.2 (by decide) (by decide) rfl
  exact h4.2.2 (by decide)

/-- Any object returned by the intersection scan is one of the hits and
carries a defined, strictly positive bodyID. -/
theorem findDraggable_mem : ∀ (l : List Intersection) (i : Intersection),
    findDraggable l = some i →
      i ∈ l ∧ ∃ b, i.obj.bodyID = some b ∧ 0 < b := by
  intro l
  induction l with
  | nil => intro i h; simp [findDraggable] at h
  | cons a rest ih =>
    intro i h
    unfold findDraggable at h
    cases hb : a.obj.bodyID with
    | none =>
      rw [hb] at h
      simp only [] at h
      obtain ⟨hm, hrest⟩ := ih i h
      exact ⟨List.mem_cons_of_mem a hm, hrest⟩
    | some b =>
      rw [hb] at h
      simp only [] at h
      by_cases hpos : b > 0
      · rw [if_pos hpos] at h
        injection h with h
        subst h
        exact ⟨List.mem_cons_self _ _, b, hb, hpos⟩
      · rw [if_neg hpos] at h
        obtain ⟨hm, hrest⟩ := ih i h
        exact ⟨List.mem_cons_of_mem a hm, hrest⟩

/-- C9 counterexample: after a press that grabs a body and a second press
(second touch contact) whose raycast misses, active is still true while
physicsObject is null, refuting the claimed invariant that active implies a
non-null physicsObject. -/
theorem c9_drag_state_invariant_counterexample :
    c9badState.active = true ∧ c9badState.physicsObject = none :=
  ⟨rfl, rfl⟩

/-- C9 amended: a drag only starts on a pointerdown whose raycast hits an
object with defined bodyID greater than 0; the invariant that active implies
a grabbed object and disabled controls holds at construction and is
preserved by every pointer event, provided no pointerdown is delivered
while a drag is already active (single-pointer input); and every pointerup
or pointerout resets the state with controls enabled and arrow hidden. -/
theorem c9_drag_state_invariant_amended :
    dragInvariant DragState.init ∧
    (∀ (e : PointerEvt) (s : DragState), dragInvariant s →
      (e.kind = PointerKind.pointerdown → s.active = false) →
      dragInvariant (DragState.onPointer e s)) ∧
    (∀ (e : PointerEvt) (s : DragState), s.active = false →
      (DragState.onPointer e s).active = true →
      e.kind = PointerKind.pointerdown ∧
      ∃ i, i ∈ e.intersects ∧
        (DragState.onPointer e s).physicsObject = some i.obj ∧
        ∃ b, i.obj.bodyID = some b ∧ 0 < b) ∧
    (∀ (e : PointerEvt) (s : DragState),
      e.kind = PointerKind.pointerup ∨ e.kind = PointerKind.pointerout →
      (DragState.onPointer e s).physicsObject = none ∧
      (DragState.onPointer e s).active = false ∧
      (DragState.onPointer e s).controlsEnabled = true ∧
      (DragState.onPointer e s).arrowVisible = false) := by
  refine ⟨?_, ?_, ?_, ?_⟩
  · intro h
    simp [DragState.init] at h
  · intro e s hinv hdown
    cases hk : e.kind with
    | pointerdown =>
      have hact0 : s.active = false := hdown hk
      simp only [DragState.onPointer, hk]
      cases hfd : findDraggable e.intersects with
      | some i =>
        intro _
        constructor <;> simp [DragState.start, hfd]
      | none =>
        intro hact
        simp [DragState.start, hfd, hact0] at hact
    | pointermove =>
      simp only [DragState.onPointer, hk]
      by_cases hmd : s.mouseDown
      · by_cases hact : s.active
        · simp only [hmd, hact, if_pos, if_true]
          unfold DragState.move
          rw [if_pos hact]
          unfold DragState.update
          cases hobj : s.physicsObject with
          | some obj =>
            intro _
            exact ⟨by simp, (hinv hact).2⟩
          | none =>
            intro h
            exact ⟨by simpa [hobj] using (hinv hact).1, (hinv hact).2⟩
        · simp [hmd, hact]
          exact hinv
      · simp [hmd]
        exact hinv
    | pointerup =>
      simp [DragState.onPointer, hk, DragState.endDrag, dragInvariant]
    | pointerout =>
      simp [DragState.onPointer, hk, DragState.endDrag, dragInvariant]
  · intro e s hact0 hact1
    cases hk : e.kind with
    | pointerdown =>
      simp only [DragState.onPointer, hk] at hact1 ⊢
      refine ⟨by trivial, ?_⟩
      cases hfd : findDraggable e.intersects with
      | none =>
        simp [DragState.start, hfd, hact0] at hact1
      | some i =>
        obtain ⟨hm, b, hb, hbpos⟩ := findDraggable_mem e.intersects i hfd
        exact ⟨i, hm, by simp [DragState.start, hfd], b, hb, hbpos⟩
    | pointermove =>
      by_cases hmd : s.mouseDown <;>
        simp [DragState.onPointer, hk, hmd, hact0, DragState.move] at hact1
    | pointerup =>
      simp [DragState.onPointer, hk, DragState.endDrag] at hact1
    | pointerout =>
      simp [DragState.onPointer, hk, DragState.endDrag] at hact1
  · intro e s hk
    rcases hk with hk | hk <;>
      simp [DragState.onPointer, hk, DragState.endDrag]

/-- C9 amended witness: the invariant is preserved across a concrete press
on a draggable body, and a concrete release resets the state. -/
theorem c9_drag_state_invariant_amended_witness :
    dragInvariant (DragState.onPointer c9evDown1 DragState.init) ∧
    ((DragState.onPointer c9evUp c9sAfterDown).physicsObject = none ∧
      (DragState.onPointer c9evUp c9sAfterDown).active = false ∧
      (DragState.onPointer c9evUp c9sAfterDown).controlsEnabled = true ∧
      (DragState.onPointer c9evUp c9sAfterDown).arrowVisible = false) :=
  ⟨c9_drag_state_invariant_amended.2.1 c9evDown1 DragState.init
      c9_drag_state_invariant_amended.1 (fun _ => rfl),
   c9_drag_state_invariant_amended.2.2.2 c9evUp c9sAfterDown (Or.inl rfl)⟩

/-- C5: update does nothing unless the controller is active and the action
is walk; an effective update advances the phase by exactly deltaTime; a
motor actuator with in-range transmission joint trnId receives the PD
control 100 * (target - qpos[trnId]) + 10 * (-qvel[trnId - 1]); a non-motor
actuator receives the target angle itself. -/
theorem c5_walking_gait_pd_law (C : ZMPCtl) (sinq : ℚ → ℚ) (piq dt : ℚ)
    (action : String) (st : ZMPState) (sim : ZMPSim) :
    (st.isActive = false ∨ action ≠ "walk" →
      ZMPCtl.update C sinq piq dt action st sim = some (st, sim)) ∧
    (∀ st' sim', ZMPCtl.update C sinq piq dt action st sim = some (st', sim') →
      st.isActive = true → action = "walk" → st'.phase = st.phase + dt) ∧
    (∀ name target idx trnid trnId q v,
      C.motorActuators.contains name = true →
      getActuatorIndex C name = some idx →
      idx < sim.ctrl.length →
      C.actuator_trnid = some trnid →
      trnid.get? (idx * 2) = some trnId →
      0 ≤ trnId → trnId < (sim.qpos.length : ℤ) →
      0 ≤ trnId - 1 → trnId - 1 < (sim.qvel.length : ℤ) →
      sim.qpos[trnId.toNat]? = some q →
      sim.qvel[(trnId - 1).toNat]? = some v →
      applyTarget C sim (name, target) =
        some { sim with ctrl := sim.ctrl.set idx (100 * (target - q) + 10 * (-v)) }) ∧
    (∀ name target idx,
      C.motorActuators.contains name = false →
      getActuatorIndex C name = some idx →
      idx < sim.ctrl.length →
      applyTarget C sim (name, target) =
        some { sim with ctrl := sim.ctrl.set idx target }) := by
  refine ⟨?_, ?_, ?_, ?_⟩
  · intro h
    unfold ZMPCtl.update
    rw [if_pos h]
  · intro st' sim' h ha hw
    unfold ZMPCtl.update at h
    rw [if_neg (by simp [ha, hw])] at h
    obtain ⟨s1, hs1, heq⟩ := Option.map_eq_some'.mp h
    have h1 := congrArg Prod.fst heq
    simp only [] at h1
    rw [← h1]
  · intro name target idx trnid trnId q v hmot hidx hlen htrn hget h0 hqlen
      hv0 hvlen hq hv
    have hmem : name ∈ C.motorActuators := by simpa using hmot
    have hget' : trnid[idx * 2]? = some trnId := by
      simpa [List.get?_eq_getElem?] using hget
    have hv' : sim.qvel[trnId.toNat - 1]? = some v := by
      rw [← Int.pred_toNat]; exact hv
    simp [applyTarget, hidx, hmem, hlen, htrn, hget', h0, hqlen, hv0, hvlen,
      hq, hv', PD_GAINS]
  · intro name target idx hmot hidx hlen
    have hmem : name ∉ C.motorActuators := by simpa using hmot
    simp [applyTarget, hidx, hmem, hlen]

/-- C5 witness: a concrete Go2 controller skips an idle update, advances the
phase by deltaTime on a walk update, applies the PD torque
100 * (1 - 4) + 10 * (-5) to the FL_hip motor, and writes the target angle
directly to the FL_thigh servo. -/
theorem c5_walking_gait_pd_law_witness :
    ZMPCtl.update c5CW (fun _ => 0) 0 1 "idle" ⟨0, true⟩ c5simW =
      some (⟨0, true⟩, c5simW) ∧
    (∃ st' sim', ZMPCtl.update c5CW (fun _ => 0) 0 1 "walk" ⟨0, true⟩ c5simW =
      some (st', sim') ∧ st'.phase = 0 + 1) ∧
    applyTarget c5CW c5simW ("FL_hip", 1) =
      some { c5simW with ctrl := c5simW.ctrl.set 0 (100 * (1 - 4) + 10 * (-5)) } ∧
    applyTarget c5CW c5simW ("FL_thigh", 1/2) =
      some { c5simW with ctrl := c5simW.ctrl.set 1 (1/2) } := by
  refine ⟨?_, ?_, ?_, ?_⟩
  · exact (c5_walking_gait_pd_law c5CW (fun _ => 0) 0 1 "idle" ⟨0, true⟩
      c5simW).1 (Or.inr (by decide))
  · exact ⟨_, _, rfl, (c5_walking_gait_pd_law c5CW (fun _ => 0) 0 1 "walk"
      ⟨0, true⟩ c5simW).2.1 _ _ rfl rfl rfl⟩
  · exact (c5_walking_gait_pd_law c5CW (fun _ => 0) 0 1 "walk" ⟨0, true⟩
      c5simW).2.2.1 "FL_hip" 1 0 [7, 0, 9, 0] 7 4 5 (by decide) (by decide)
      (by decide) rfl (by decide) (by decide) (by decide) (by decide)
      (by decide) rfl rfl
  · exact (c5_walking_gait_pd_law c5CW (fun _ => 0) 0 1 "walk" ⟨0, true⟩
      c5simW).2.2.2 "FL_thigh" (1/2) 1 (by decide) (by decide) (by decide)

/-- Every checked array access inside one target application is protected
by the guards mirrored from the source, so applying a target never fails. -/
theorem applyTarget_isSome (C : ZMPCtl) (sim : ZMPSim) (nt : String × ℚ) :
    (applyTarget C sim nt).isSome = true := by
  obtain ⟨name, target⟩ := nt
  cases hidx : getActuatorIndex C name with
  | none => simp [applyTarget, hidx]
  | some idx =>
    by_cases hlen : idx < sim.ctrl.length
    case neg => simp [applyTarget, hidx, hlen]
    by_cases hmem : name ∈ C.motorActuators
    case neg => simp [applyTarget, hidx, hlen, hmem]
    cases htr : C.actuator_trnid with
    | none => simp [applyTarget, hidx, hlen, hmem, htr]
    | some trnid =>
      cases hget : trnid[idx * 2]? with
      | none => simp [applyTarget, hidx, hlen, hmem, htr, hget]
      | some trnId =>
        by_cases hq : 0 ≤ trnId ∧ trnId < (sim.qpos.length : ℤ)
        case neg => simp [applyTarget, hidx, hlen, hmem, htr, hget, hq]
        obtain ⟨q, hqs⟩ : ∃ q, sim.qpos[trnId.toNat]? = some q := by
          have hlt : trnId.toNat < sim.qpos.length := by omega
          exact ⟨_, List.getElem?_eq_getElem hlt⟩
        by_cases hv : 0 ≤ trnId - 1 ∧ trnId - 1 < (sim.qvel.length : ℤ)
        · obtain ⟨v, hvs⟩ : ∃ v, sim.qvel[trnId.toNat - 1]? = some v := by
            have hlt : trnId.toNat - 1 < sim.qvel.length := by omega
            exact ⟨_, List.getElem?_eq_getElem hlt⟩
          simp [applyTarget, hidx, hlen, hmem, htr, hget, hq.1, hq.2,
            hv.1, hv.2, hqs, hvs]
        · have hv' : ¬ (1 ≤ trnId ∧ trnId - 1 < (sim.qvel.length : ℤ)) := by
            omega
          simp [applyTarget, hidx, hlen, hmem, htr, hget, hq.1, hq.2, hqs, hv']

/-- Folding target application over any target list never fails. -/
theorem foldlM_applyTarget_isSome (C : ZMPCtl) :
    ∀ (l : List (String × ℚ)) (sim : ZMPSim),
      (l.foldlM (applyTarget C) sim).isSome = true := by
  intro l
  induction l with
  | nil => intro sim; simp [List.foldlM]
  | cons a rest ih =>
    intro sim
    have h := applyTarget_isSome C sim a
    cases happ : applyTarget C sim a with
    | none => rw [happ] at h; simp at h
    | some s1 => simp [List.foldlM, happ, ih s1]

/-- C10: ZMPController.update never reads or writes out of bounds: the
update always completes (all raw reads are behind the bounds guards), a
target whose actuator name is absent from the map is skipped without any
write, and when the velocity index trnId - 1 is out of range the velocity 0
is used in the PD law instead of a read. -/
theorem c10_update_never_out_of_bounds (C : ZMPCtl) (sinq : ℚ → ℚ)
    (piq dt : ℚ) (action : String) (st : ZMPState) (sim : ZMPSim) :
    (ZMPCtl.update C sinq piq dt action st sim).isSome = true ∧
    (∀ name target, getActuatorIndex C name = none →
      applyTarget C sim (name, target) = some sim) ∧
    (∀ name target idx trnid trnId q,
      C.motorActuators.contains name = true →
      getActuatorIndex C name = some idx →
      idx < sim.ctrl.length →
      C.actuator_trnid = some trnid →
      trnid.get? (idx * 2) = some trnId →
      0 ≤ trnId → trnId < (sim.qpos.length : ℤ) →
      sim.qpos[trnId.toNat]? = some q →
      (trnId - 1 < 0 ∨ (sim.qvel.length : ℤ) ≤ trnId - 1) →
      applyTarget C sim (name, target) =
        some { sim with ctrl := sim.ctrl.set idx (100 * (target - q) + 10 * (-0)) }) := by
  refine ⟨?_, ?_, ?_⟩
  · unfold ZMPCtl.update
    by_cases h : st.isActive = false ∨ action ≠ "walk"
    · rw [if_pos h]
      rfl
    · rw [if_neg h]
      simp only [Option.isSome_map']
      exact foldlM_applyTarget_isSome C _ sim
  · intro name target hidx
    simp [applyTarget, hidx]
  · intro name target idx trnid trnId q hmot hidx hlen htrn hget h0 hqlen
      hq hoob
    have hmem : name ∈ C.motorActuators := by simpa using hmot
    have hget' : trnid[idx * 2]? = some trnId := by
      simpa [List.get?_eq_getElem?] using hget
    have hnv : ¬ (1 ≤ trnId ∧ trnId - 1 < (sim.qvel.length : ℤ)) := by
      omega
    simp [applyTarget, hidx, hmem, hlen, htrn, hget', h0, hqlen, hq, hnv,
      PD_GAINS]

/-- C10 witness: the concrete Go2 update completes, an unknown actuator
name is skipped, and with an empty qvel array the FL_hip torque is computed
with velocity 0. -/
theorem c10_update_never_out_of_bounds_witness :
    (ZMPCtl.update c5CW (fun _ => 0) 0 1 "walk" ⟨0, true⟩ c5simW).isSome = true ∧
    applyTarget c5CW c5simW ("unknown_actuator", 1) = some c5simW ∧
    applyTarget c5CW c10simW ("FL_hip", 1) =
      some { c10simW with ctrl := c10simW.ctrl.set 0 (100 * (1 - 4) + 10 * (-0)) } := by
  refine ⟨?_, ?_, ?_⟩
  · exact (c10_update_never_out_of_bounds c5CW (fun _ => 0) 0 1 "walk"
      ⟨0, true⟩ c5simW).1
  · exact (c10_update_never_out_of_bounds c5CW (fun _ => 0) 0 1 "walk"
      ⟨0, true⟩ c5simW).2.1 "unknown_actuator" 1 (by decide)
  · exact (c10_update_never_out_of_bounds c5CW (fun _ => 0) 0 1 "walk"
      ⟨0, true⟩ c10simW).2.2 "FL_hip" 1 0 [7, 0, 9, 0] 7 4 (by decide)
      (by decide) (by decide) rfl (by decide) (by decide) (by decide) rfl
      (Or.inr (by decide))

end Portfolio
